import Mathlib

/-!
Verification of the storex bucket/file consistency and presigned-access-issuance
subsystem.  The definitions below are a shallow embedding of the TypeScript
source: the Mongo collections become Lean lists, `findOne` becomes `List.find?`
on the first match, `$inc` updates become pure record updates applied to the
first matching record, and thrown `Error(message)` becomes `Except String` /
an explicit error result carrying the message string.
-/

namespace Storex

/-- A bucket record (src/unnamed/part_002, `IBucket`): name, owner, the two
bearer keys and the four aggregate counters. -/
structure Bucket where
  id : String
  name : String
  ownerId : String
  publicKey : String
  privateKey : String
  downloadCount : Int
  uploadCount : Int
  totalSize : Int
  fileCount : Int
deriving Repr, DecidableEq

/-- A file record (`IFile`): identity, owning bucket, display name, original
client-supplied name, MIME type (`ty` stands for the source's `type` field,
which is a reserved word in Lean), declared size, download counter and the
free-form metadata map. -/
structure SFile where
  id : String
  key : String
  bucketId : String
  name : String
  originalName : String
  ty : String
  size : Int
  downloads : Int
  metadata : List (String × String) := []
deriving Repr, DecidableEq

/-- The document store: the bucket and file collections plus the set of user
ids (only user existence is consulted by the core). -/
structure DB where
  buckets : List Bucket
  files : List SFile
  users : List String
deriving Repr, DecidableEq

/-- Update the first element satisfying `p` (model of Mongo
`findOneAndUpdate`, which touches exactly the first match). -/
def updateFirstBy (p : α → Bool) (f : α → α) : List α → List α
  | [] => []
  | x :: xs => if p x then f x :: xs else x :: updateFirstBy p f xs

/-- Remove the first element satisfying `p` (model of Mongo
`findOneAndDelete`). -/
def removeFirstBy (p : α → Bool) : List α → List α
  | [] => []
  | x :: xs => if p x then xs else x :: removeFirstBy p xs

/-- JS `String.prototype.trim`: strip leading and trailing whitespace
(structural model of the runtime's trim, kernel-computable). -/
def strTrim (s : String) : String :=
  ⟨((s.data.dropWhile Char.isWhitespace).reverse.dropWhile Char.isWhitespace).reverse⟩

/-- JS `String.prototype.toLowerCase` (ASCII, as used for bucket-name
comparison): lower-case every character. -/
def strLower (s : String) : String :=
  ⟨s.data.map Char.toLower⟩

/-! ## Repository layer (src/src/repositories/core) -/

/-- `BucketRepository.getBucketByID`: `Bucket.findOne({id})`. -/
def getBucketByID (bucketID : String) (db : DB) : Option Bucket :=
  db.buckets.find? (fun b => b.id = bucketID)

/-- `FileRepository.getFileByID`: `File.findOne({id})`. -/
def getFileByID (fileID : String) (db : DB) : Option SFile :=
  db.files.find? (fun f => f.id = fileID)

/-- `FileRepository.getFileByName`: `File.findOne({bucketId, name})` — exact,
case-sensitive equality on both fields. -/
def getFileByName (bucketID : String) (name : String) (db : DB) : Option SFile :=
  db.files.find? (fun f => f.bucketId = bucketID && f.name = name)

/-- `FileRepository.getFilesByBucketID`: `File.find({bucketId})`. -/
def getFilesByBucketID (bucketID : String) (db : DB) : List SFile :=
  db.files.filter (fun f => f.bucketId = bucketID)

/-- `FileRepository.createFile`: `File.create(file)` appends the record. -/
def fileRepoCreate (f : SFile) (db : DB) : DB :=
  { db with files := db.files ++ [f] }

/-- `FileRepository.deleteFile`: `File.findOneAndDelete({id})`, returning
whether a matching record existed. -/
def fileRepoDelete (fileID : String) (db : DB) : DB × Bool :=
  ({ db with files := removeFirstBy (fun f => f.id = fileID) db.files },
   (getFileByID fileID db).isSome)

/-- `FileRepository.incrementDownloads`: `File.findOneAndUpdate({id},
{$inc: {downloads: 1}}, {new: true})` — returns the updated document, or
`none` when no row matched. -/
def fileRepoIncrementDownloads (fileID : String) (db : DB) : DB × Option SFile :=
  match getFileByID fileID db with
  | some f =>
    let files1 := updateFirstBy (fun g => g.id = fileID)
      (fun g => { g with downloads := g.downloads + 1 }) db.files
    ({ db with files := files1 }, some { f with downloads := f.downloads + 1 })
  | none => (db, none)

/-- Shared shape of the bucket repository's `findOneAndUpdate` calls: apply
`f` to the first bucket whose `id` matches. -/
def updBucket (bucketID : String) (f : Bucket → Bucket) (db : DB) : DB :=
  { db with buckets := updateFirstBy (fun b => b.id = bucketID) f db.buckets }

/-- `BucketRepository.updateBucketStats`: `$inc {totalSize: fileSizeDelta,
fileCount: fileCountDelta}` on the bucket. -/
def updateBucketStats (bucketID : String) (fileSizeDelta fileCountDelta : Int) (db : DB) : DB :=
  updBucket bucketID
    (fun b => { b with totalSize := b.totalSize + fileSizeDelta,
                       fileCount := b.fileCount + fileCountDelta }) db

/-- `BucketRepository.incrementUploadCount`: `$inc {uploadCount: 1}`. -/
def incrementUploadCount (bucketID : String) (db : DB) : DB :=
  updBucket bucketID (fun b => { b with uploadCount := b.uploadCount + 1 }) db

/-- `BucketRepository.incrementDownloadCount`: `$inc {downloadCount: 1}`. -/
def incrementDownloadCount (bucketID : String) (db : DB) : DB :=
  updBucket bucketID (fun b => { b with downloadCount := b.downloadCount + 1 }) db

/-- `BucketRepository.deleteBucket`: `Bucket.findOneAndDelete({id})`. -/
def bucketRepoDelete (bucketID : String) (db : DB) : DB × Bool :=
  ({ db with buckets := removeFirstBy (fun b => b.id = bucketID) db.buckets },
   (getBucketByID bucketID db).isSome)

/-- `UserRepository.getUserByID` reduced to the existence check the core
consumes. -/
def userExists (userID : String) (db : DB) : Bool :=
  db.users.contains userID

/-! ## File service (src/src/services/core/file.service.ts) -/

/-- `CreateFileRequest`.  A missing/`undefined` string field and the empty
string are both falsy under the source's `!field` checks, so plain `String`
with `""` for "missing" is a faithful model; `size` is checked with
`size === undefined`, so it is an `Option Int`. -/
structure CreateFileRequest where
  bucketId : String
  name : String
  originalName : String
  ty : String
  size : Option Int
  metadata : List (String × String) := []
deriving Repr, DecidableEq

/-- `FileService.createFile`.  The fresh ids produced by the source's
`generateAppID('FILE')` / `generateAppID('FILE_KEY')` calls are passed in as
`newId` / `newKey`.  Validation, bucket lookup, duplicate-name check, record
creation and the two bucket-counter updates follow the source line by line. -/
def FileService.createFile (req : CreateFileRequest) (newId newKey : String) (db : DB) :
    Except String (DB × SFile) :=
  if req.bucketId = "" ∨ req.name = "" ∨ req.originalName = "" ∨ req.ty = "" ∨
      req.size = none then
    .error "All file fields are required"
  else
    let size := req.size.getD 0
    if size < 0 then
      .error "File size cannot be negative"
    else
      match getBucketByID req.bucketId db with
      | none => .error "Bucket not found"
      | some _ =>
        match getFileByName req.bucketId req.name db with
        | some _ => .error "File with this name already exists in bucket"
        | none =>
          let newFile : SFile :=
            { id := newId, key := newKey, bucketId := req.bucketId, name := req.name,
              originalName := req.originalName, ty := req.ty, size := size,
              downloads := 0, metadata := req.metadata }
          let db1 := fileRepoCreate newFile db
          let db2 := updateBucketStats req.bucketId size 1 db1
          let db3 := incrementUploadCount req.bucketId db2
          .ok (db3, newFile)

/-- `FileService.getFileById`: validates the id, then a plain repository
lookup (absence is returned as `none`, not an error). -/
def FileService.getFileById (fileId : String) (db : DB) : Except String (Option SFile) :=
  if strTrim fileId = "" then .error "File ID is required"
  else .ok (getFileByID fileId db)

/-- `FileService.deleteFile`: not-found check, repository delete, and —
only when the repository reported a deletion — the compensating
`updateBucketStats(bucketId, -size, -1)` on the parent bucket. -/
def FileService.deleteFile (fileId : String) (db : DB) : Except String (DB × Bool) :=
  if strTrim fileId = "" then .error "File ID is required"
  else
    match getFileByID fileId db with
    | none => .error "File not found"
    | some existingFile =>
      let r := fileRepoDelete fileId db
      let db2 :=
        if r.2 then updateBucketStats existingFile.bucketId (-existingFile.size) (-1) r.1
        else r.1
      .ok (db2, r.2)

/-- The tail of `FileService.incrementDownloads` after the file-level
increment: the source's `if (updatedFile) { await
bucketRepository.incrementDownloadCount(existingFile.bucketId) }` guard —
the bucket-level increment is issued only when the file-level increment
returned a row. -/
def FileService.incrementDownloadsFinish (existingFile : SFile) (db1 : DB)
    (updatedFile : Option SFile) : DB × Option SFile :=
  match updatedFile with
  | some _ => (incrementDownloadCount existingFile.bucketId db1, updatedFile)
  | none => (db1, updatedFile)

/-- `FileService.incrementDownloads`: validation, not-found check, file-level
repository increment, then the guarded bucket-level increment. -/
def FileService.incrementDownloads (fileId : String) (db : DB) :
    Except String (DB × Option SFile) :=
  if strTrim fileId = "" then .error "File ID is required"
  else
    match getFileByID fileId db with
    | none => .error "File not found"
    | some existingFile =>
      let r := fileRepoIncrementDownloads fileId db
      .ok (FileService.incrementDownloadsFinish existingFile r.1 r.2)

/-! ## Bucket service

The `BucketService` class itself is not among the provided sources — only its
interface (`src/src/services/impl/bucket.service.impl.ts`), its repository,
its callers and its functional tests
(`src/tests/functional/user.service.test.ts`) are.  The two operations the
claims need are therefore modelled from the spec, with the error messages and
call order fixed by the repository's own tests. -/

/-- Modelled from the spec: `BucketService.createBucket` is missing from the
sources.  Per spec §4.1 (and the functional tests): `ValidationError` on
empty/whitespace-only name or empty owner id, `NotFoundError` when no user
exists for `ownerId`, `ConflictError` when another bucket of the same owner
has the same name compared case-insensitively after trimming, and on success
the record is persisted with the trimmed name, a fresh key pair (passed in as
`publicKey`/`privateKey`) and all four counters 0. -/
def BucketService.createBucket (name ownerId : String)
    (newId publicKey privateKey : String) (db : DB) : Except String (DB × Bucket) :=
  if strTrim name = "" then .error "Bucket name is required"
  else if strTrim ownerId = "" then .error "Owner ID is required"
  else if !userExists ownerId db then .error "Owner not found"
  else if (db.buckets.filter (fun b => b.ownerId = ownerId)).any
      (fun b => strLower (strTrim b.name) = strLower (strTrim name)) then
    .error "Bucket with this name already exists for this owner"
  else
    let newBucket : Bucket :=
      { id := newId, name := strTrim name, ownerId := ownerId,
        publicKey := publicKey, privateKey := privateKey,
        downloadCount := 0, uploadCount := 0, totalSize := 0, fileCount := 0 }
    .ok ({ db with buckets := db.buckets ++ [newBucket] }, newBucket)

/-- Modelled from the spec: `BucketService.deleteBucket` is missing from the
sources.  Per spec §4.1 (and the functional tests): `NotFoundError` when the
bucket is absent; `ConflictError` — checked before any delete — when the file
repository still reports files for the bucket; otherwise the repository
delete runs and its result is returned. -/
def BucketService.deleteBucket (bucketId : String) (db : DB) : Except String (DB × Bool) :=
  if strTrim bucketId = "" then .error "Bucket ID is required"
  else
    match getBucketByID bucketId db with
    | none => .error "Bucket not found"
    | some _ =>
      if getFilesByBucketID bucketId db ≠ [] then
        .error "Cannot delete bucket that contains files. Delete all files first."
      else
        .ok (bucketRepoDelete bucketId db)

/-! ## Cache (src/src/services/util/cache/index.ts over node-cache) -/

/-- One cache entry; `expiresAt` is the absolute expiry instant in
milliseconds (`none` = no expiry). -/
structure CacheEntry where
  key : String
  value : String
  expiresAt : Option Nat
deriving Repr, DecidableEq

/-- Valid lookup: the entry exists and is unexpired at `now`. -/
def cacheLookup (key : String) (now : Nat) (cache : List CacheEntry) : Option String :=
  match cache.find? (fun e => e.key = key) with
  | some e =>
    match e.expiresAt with
    | none => some e.value
    | some t => if now ≤ t then some e.value else none
  | none => none

/-- `cache.set` keeps one entry per key: any previous entry is replaced. -/
def cacheSet (key value : String) (expiresAt : Option Nat) (cache : List CacheEntry) :
    List CacheEntry :=
  (cache.filter (fun e => !(e.key = key))) ++ [⟨key, value, expiresAt⟩]

/-- `Math.ceil(ms / 1000)` — the source hands node-cache a TTL in seconds. -/
def msToSec (ms : Nat) : Nat := (ms + 999) / 1000

/-- `getFromCache(key, executor, {expiresIn})` with a fallible executor (the
executor here is the awaited presigned-URL generation, which can throw): on a
valid hit the cached value is returned and the executor never runs; on a miss
the executor runs, a falsy (empty) result is returned without being stored,
and otherwise the result is stored with the converted TTL and returned. -/
def getFromCacheE (key : String) (executor : Except String String)
    (expiresInMs : Option Nat) (now : Nat) (cache : List CacheEntry) :
    Except String (String × List CacheEntry) :=
  match cacheLookup key now cache with
  | some v => .ok (v, cache)
  | none =>
    match executor with
    | .error e => .error e
    | .ok result =>
      if result = "" then .ok (result, cache)
      else
        match expiresInMs with
        | some ms => .ok (result, cacheSet key result (some (now + msToSec ms * 1000)) cache)
        | none => .ok (result, cacheSet key result none cache)

/-! ## Error mapping (src/src/utils/controller/index.ts) -/

/-- Character-list version of "starts with". -/
def leadsWith : List Char → List Char → Bool
  | [], _ => true
  | _ :: _, [] => false
  | c :: cs, d :: ds => c = d && leadsWith cs ds

/-- Character-list version of "occurs somewhere in". -/
def containsSeq (sub : List Char) : List Char → Bool
  | [] => leadsWith sub []
  | c :: cs => leadsWith sub (c :: cs) || containsSeq sub cs

/-- `String.prototype.includes`: `sub` occurs somewhere in `msg`. -/
def includes (msg sub : String) : Bool :=
  containsSeq sub.data msg.data

/-- The response kind the controller wrapper ends up sending. -/
inductive RespKind where
  | success
  | conflict
  | unauthorized
  | notFound
  | internalError
deriving Repr, DecidableEq

/-- `DEFAULT_ERROR_MAPPINGS` applied in order by `controllerWrapper`, with the
unmatched fallback `InternalServerErrorResponse`. -/
def mapErrorMessage (msg : String) : RespKind :=
  if includes msg "already exists" || includes msg "duplicate" then .conflict
  else if includes msg "not found" || includes msg "Invalid credentials" ||
      includes msg "Unauthorized" then .unauthorized
  else if includes msg "does not exist" || includes msg "Not found" ||
      includes msg "cannot find" then .notFound
  else .internalError

/-- Outcome of a controller body: a success payload, or the message of the
thrown error the wrapper will map. -/
inductive CtrlResult (α : Type) where
  | ok (v : α)
  | err (msg : String)
deriving Repr, DecidableEq

/-- The wrapper's classification of a controller outcome (the public
controllers use `controllerWrapper` with no custom mappings). -/
def wrapResult : CtrlResult α → RespKind
  | .ok _ => .success
  | .err m => mapErrorMessage m

/-! ## System state for the public controllers

The controllers act on the document store, the process-local cache and —
through presigned URLs and `R2Helper` — the object store.  `r2` is the set of
object-store keys currently holding bytes; `now` is the current time in
milliseconds. -/

structure Sys where
  db : DB
  cache : List CacheEntry
  r2 : List String
  now : Nat
deriving Repr, DecidableEq

/-- `R2Helper.deleteFile(r2Key)`: removes the object from the store.  Note:
no code path of the repository's file-deletion flow calls it — it is defined
by the source (src/unnamed/part_005) but has no caller. -/
def r2DeleteObject (r2Key : String) (s : Sys) : Sys :=
  { s with r2 := s.r2.filter (fun k => !(k = r2Key)) }

/-- The system-level effect of `FileService.deleteFile`: the service touches
only the document store, so the cache, the object store and the clock pass
through unchanged. -/
def deleteFileFlow (fileId : String) (s : Sys) : Except String (Sys × Bool) :=
  match FileService.deleteFile fileId s.db with
  | .error e => .error e
  | .ok (db1, deleted) => .ok ({ s with db := db1 }, deleted)

/-! ## Public controllers (src/src/controllers/public.controller.ts)

The bucket argument is the record the public-key middleware resolved
(`req.bucket!`).  The fresh ids the source draws from `generateAppID` are
passed in (`nameNonce` for the id embedded in the generated file name,
`fileId`/`fileKey` for `FileService.createFile`), and the R2 presigned-URL
helpers are passed as fallible functions. -/

/-- `POST /public/file/upload-uri` request body.  `fileName` is only tested
with `??`, so `none` models `undefined`/`null`; `fileType` is tested with
`!fileType` (`""` falsy); `fileSize` with `!fileSize` (absent or 0 falsy);
`originalName` with `||` (`""` falsy). -/
structure UploadUriRequest where
  fileName : Option String
  fileType : String
  fileSize : Option Int
  originalName : String := ""
  metadata : List (String × String) := []
deriving Repr, DecidableEq

/-- What `getUploadUri` hands to `SuccessResponse`: the created file record
and the presigned upload URL. -/
structure UploadPayload where
  file : SFile
  uploadUrl : String
deriving Repr, DecidableEq

/-- `PublicController.getUploadUri`: falsy check on `fileType`/`fileSize`,
name generation `` `${fileName ?? 'UNNAMED'}xxx${generateAppID('FILE')}` ``,
`originalName || finalFileName`, record creation through the file service,
then presigned-URL issuance.  There is no try/catch around the issuance: an
issuance error propagates with the database changes already applied. -/
def PublicController.getUploadUri (req : UploadUriRequest) (bucket : Bucket)
    (nameNonce fileId fileKey : String) (issueUpload : String → Except String String)
    (s : Sys) : Sys × CtrlResult UploadPayload :=
  if req.fileType = "" ∨ req.fileSize = none ∨ req.fileSize = some 0 then
    (s, .err "fileType and fileSize are required")
  else
    let finalFileName := (req.fileName.getD "UNNAMED") ++ "xxx" ++ nameNonce
    let finalOriginalName := if req.originalName = "" then finalFileName else req.originalName
    match FileService.createFile
        { bucketId := bucket.id, name := finalFileName,
          originalName := finalOriginalName, ty := req.fileType,
          size := req.fileSize, metadata := req.metadata } fileId fileKey s.db with
    | .error e => (s, .err e)
    | .ok (db1, file) =>
      match issueUpload file.id with
      | .error e => ({ s with db := db1 }, .err e)
      | .ok url => ({ s with db := db1 }, .ok { file := file, uploadUrl := url })

/-- `PublicController.getDownloadUrl`: id check, file lookup, tenant check
(`file.bucketId !== bucket.id` throws), cache-through presigned-URL
generation with a one-hour TTL, then the unconditional
`fileService.incrementDownloads` — also on a cache hit. -/
def PublicController.getDownloadUrl (fileId : String) (bucket : Bucket)
    (genDownload : String → Except String String) (s : Sys) : Sys × CtrlResult String :=
  if fileId = "" then (s, .err "fileId query parameter is required")
  else
    match FileService.getFileById fileId s.db with
    | .error e => (s, .err e)
    | .ok none => (s, .err "File not found")
    | .ok (some file) =>
      if file.bucketId ≠ bucket.id then (s, .err "File does not belong to this bucket")
      else
        let cacheKey := "download_url:" ++ fileId
        match getFromCacheE cacheKey (genDownload file.id) (some 3600000) s.now s.cache with
        | .error e => (s, .err e)
        | .ok (url, cache1) =>
          match FileService.incrementDownloads file.id s.db with
          | .error e => ({ s with cache := cache1 }, .err e)
          | .ok (db1, _) => ({ s with db := db1, cache := cache1 }, .ok url)

/-- `POST /public/file/upload` (multipart) input: the uploaded file's
attributes as multer reports them, plus the optional `fileName` form field
(`providedFileName || ...`, so `""` models "not provided"). -/
structure UploadFileRequest where
  originalname : String
  mimetype : String
  size : Int
  providedFileName : String := ""
  metadata : List (String × String) := []
deriving Repr, DecidableEq

/-- `PublicController.uploadFile` — the direct-upload flow.  Unlike
`getUploadUri` it wraps the issuance in try/catch: on an issuance error the
just-created file record is deleted (`fileService.deleteFile`) before the
error propagates. -/
def PublicController.uploadFile (req : UploadFileRequest) (bucket : Bucket)
    (fileId fileKey : String) (issueUpload : String → Except String String)
    (s : Sys) : Sys × CtrlResult UploadPayload :=
  let finalFileName :=
    if req.providedFileName = "" then toString s.now ++ "_" ++ req.originalname
    else req.providedFileName
  if req.providedFileName ≠ "" ∧
      (getFileByName bucket.id req.providedFileName s.db).isSome then
    (s, .err "File with this name already exists in bucket")
  else
    match FileService.createFile
        { bucketId := bucket.id, name := finalFileName,
          originalName := req.originalname, ty := req.mimetype,
          size := some req.size, metadata := req.metadata } fileId fileKey s.db with
    | .error e => (s, .err e)
    | .ok (db1, file) =>
      match issueUpload file.id with
      | .ok url => ({ s with db := db1 }, .ok { file := file, uploadUrl := url })
      | .error e =>
        match FileService.deleteFile file.id db1 with
        | .ok (db2, _) => ({ s with db := db2 }, .err e)
        | .error e2 => ({ s with db := db1 }, .err e2)

/-! ## Helper lemmas about the list model -/

@[simp]
theorem files_updBucket (tid : String) (f : Bucket → Bucket) (db : DB) :
    (updBucket tid f db).files = db.files := rfl

@[simp]
theorem buckets_fileRepoCreate (nf : SFile) (db : DB) :
    (fileRepoCreate nf db).buckets = db.buckets := rfl

theorem find?_updateFirstBy_key (key : α → String) (f : α → α)
    (hf : ∀ x, key (f x) = key x) (tid bid : String) (l : List α) :
    (updateFirstBy (fun x => key x = tid) f l).find? (fun x => key x = bid) =
      if bid = tid then (l.find? (fun x => key x = bid)).map f
      else l.find? (fun x => key x = bid) := by
  induction l with
  | nil => simp [updateFirstBy]
  | cons x xs ih =>
    by_cases hx : key x = tid
    · by_cases hb : bid = tid
      · subst hb
        simp [updateFirstBy, hx, List.find?_cons, hf]
      · have hxb : ¬ (key x = bid) := fun hc => hb (hc ▸ hx.symm ▸ rfl)
        have htb : ¬ (tid = bid) := fun hc => hb hc.symm
        simp [updateFirstBy, hx, List.find?_cons, hf, hb, hxb, htb]
    · by_cases hxb : key x = bid
      · have hb : ¬ (bid = tid) := fun hc => hx (hxb.symm ▸ hc ▸ rfl)
        simp [updateFirstBy, hx, List.find?_cons, hxb, hb]
      · simp [updateFirstBy, hx, List.find?_cons, hxb, ih]

theorem getBucketByID_updBucket (bid tid : String) (f : Bucket → Bucket)
    (hf : ∀ b, (f b).id = b.id) (db : DB) :
    getBucketByID bid (updBucket tid f db) =
      if bid = tid then (getBucketByID bid db).map f else getBucketByID bid db := by
  simpa [getBucketByID, updBucket] using
    find?_updateFirstBy_key Bucket.id f hf tid bid db.buckets

theorem filterWeight_append (w : α → Int) (q : α → Bool) (l : List α) (x : α) :
    (((l ++ [x]).filter q).map w).sum =
      ((l.filter q).map w).sum + (if q x then w x else 0) := by
  by_cases h : q x <;> simp [List.filter_append, h]

theorem filterWeight_removeFirstBy (w : α → Int) (p q : α → Bool) (l : List α) (F : α)
    (h : l.find? p = some F) :
    (((removeFirstBy p l).filter q).map w).sum =
      ((l.filter q).map w).sum - (if q F then w F else 0) := by
  induction l with
  | nil => simp at h
  | cons x xs ih =>
    by_cases hx : p x
    · rw [List.find?_cons] at h
      simp only [hx] at h
      cases h
      by_cases hq : q F <;> simp [removeFirstBy, hx, List.filter_cons, hq]
    · rw [List.find?_cons] at h
      simp only [hx] at h
      by_cases hq : q x <;> · simp [removeFirstBy, hx, List.filter_cons, hq, ih h]; try ring

theorem filterLen_append (q : α → Bool) (l : List α) (x : α) :
    (((l ++ [x]).filter q).length : Int) =
      ((l.filter q).length : Int) + (if q x then 1 else 0) := by
  by_cases h : q x <;> simp [List.filter_append, h]

theorem filterLen_removeFirstBy (p q : α → Bool) (l : List α) (F : α)
    (h : l.find? p = some F) :
    (((removeFirstBy p l).filter q).length : Int) =
      ((l.filter q).length : Int) - (if q F then 1 else 0) := by
  induction l with
  | nil => simp at h
  | cons x xs ih =>
    by_cases hx : p x
    · rw [List.find?_cons] at h
      simp only [hx] at h
      cases h
      by_cases hq : q F <;> simp [removeFirstBy, hx, List.filter_cons, hq]
    · rw [List.find?_cons] at h
      simp only [hx] at h
      by_cases hq : q x <;> · simp [removeFirstBy, hx, List.filter_cons, hq, ih h]; try ring

/-! ## The bucket-counter invariant (claim C2) -/

/-- Sum of the sizes of the files currently recorded in bucket `bid`. -/
def sizeSum (bid : String) (db : DB) : Int :=
  ((db.files.filter fun f => f.bucketId = bid).map SFile.size).sum

/-- Number of files currently recorded in bucket `bid`. -/
def fileCnt (bid : String) (db : DB) : Int :=
  ((db.files.filter fun f => f.bucketId = bid).length : Int)

/-- The aggregate counters of every reachable bucket record agree exactly with
the files currently in that bucket. -/
def statsInv (db : DB) : Prop :=
  ∀ bid b, getBucketByID bid db = some b →
    b.totalSize = sizeSum bid db ∧ b.fileCount = fileCnt bid db

/-- One file-service operation of the conservation scenario. -/
inductive FsOp where
  | create (req : CreateFileRequest) (newId newKey : String)
  | delete (fileId : String)

/-- Run one operation through the file service, keeping only the database. -/
def applyOp : FsOp → DB → Except String DB
  | .create req newId newKey, db => (FileService.createFile req newId newKey db).map Prod.fst
  | .delete fileId, db => (FileService.deleteFile fileId db).map Prod.fst

/-- Run a whole sequence; the sequence counts as successful only if every
operation succeeded. -/
def applyOps : List FsOp → DB → Except String DB
  | [], db => .ok db
  | op :: ops, db =>
    match applyOp op db with
    | .error e => .error e
    | .ok db1 => applyOps ops db1

theorem getBucketByID_setFiles (bid : String) (db : DB) (fs : List SFile) :
    getBucketByID bid { db with files := fs } = getBucketByID bid db := rfl

theorem getBucketByID_updateBucketStats (bid tid : String) (sd cd : Int) (db : DB) :
    getBucketByID bid (updateBucketStats tid sd cd db) =
      if bid = tid then
        (getBucketByID bid db).map
          (fun b => { b with totalSize := b.totalSize + sd, fileCount := b.fileCount + cd })
      else getBucketByID bid db :=
  getBucketByID_updBucket bid tid
    (fun b => { b with totalSize := b.totalSize + sd, fileCount := b.fileCount + cd })
    (fun _ => rfl) db

theorem getBucketByID_incrementUploadCount (bid tid : String) (db : DB) :
    getBucketByID bid (incrementUploadCount tid db) =
      if bid = tid then
        (getBucketByID bid db).map (fun b => { b with uploadCount := b.uploadCount + 1 })
      else getBucketByID bid db :=
  getBucketByID_updBucket bid tid
    (fun b => { b with uploadCount := b.uploadCount + 1 }) (fun _ => rfl) db

theorem getBucketByID_incrementDownloadCount (bid tid : String) (db : DB) :
    getBucketByID bid (incrementDownloadCount tid db) =
      if bid = tid then
        (getBucketByID bid db).map (fun b => { b with downloadCount := b.downloadCount + 1 })
      else getBucketByID bid db :=
  getBucketByID_updBucket bid tid
    (fun b => { b with downloadCount := b.downloadCount + 1 }) (fun _ => rfl) db

theorem getBucketByID_fileRepoCreate (bid : String) (nf : SFile) (db : DB) :
    getBucketByID bid (fileRepoCreate nf db) = getBucketByID bid db := rfl

theorem sizeSum_updateBucketStats (bid tid : String) (sd cd : Int) (db : DB) :
    sizeSum bid (updateBucketStats tid sd cd db) = sizeSum bid db := rfl

theorem fileCnt_updateBucketStats (bid tid : String) (sd cd : Int) (db : DB) :
    fileCnt bid (updateBucketStats tid sd cd db) = fileCnt bid db := rfl

theorem sizeSum_incrementUploadCount (bid tid : String) (db : DB) :
    sizeSum bid (incrementUploadCount tid db) = sizeSum bid db := rfl

theorem fileCnt_incrementUploadCount (bid tid : String) (db : DB) :
    fileCnt bid (incrementUploadCount tid db) = fileCnt bid db := rfl

theorem sizeSum_fileRepoCreate (bid : String) (nf : SFile) (db : DB) :
    sizeSum bid (fileRepoCreate nf db) =
      sizeSum bid db + (if nf.bucketId = bid then nf.size else 0) := by
  have := filterWeight_append SFile.size (fun f => decide (f.bucketId = bid)) db.files nf
  simpa [sizeSum, fileRepoCreate] using this

theorem fileCnt_fileRepoCreate (bid : String) (nf : SFile) (db : DB) :
    fileCnt bid (fileRepoCreate nf db) =
      fileCnt bid db + (if nf.bucketId = bid then 1 else 0) := by
  have := filterLen_append (fun f => decide (f.bucketId = bid)) db.files nf
  simpa [fileCnt, fileRepoCreate] using this

theorem sizeSum_removeFirst (bid fileId : String) (F : SFile) (db : DB)
    (h : getFileByID fileId db = some F) :
    sizeSum bid { db with files := removeFirstBy (fun f => f.id = fileId) db.files } =
      sizeSum bid db - (if F.bucketId = bid then F.size else 0) := by
  have h' : db.files.find? (fun f => decide (f.id = fileId)) = some F := h
  have := filterWeight_removeFirstBy SFile.size (fun f => decide (f.id = fileId))
    (fun f => decide (f.bucketId = bid)) db.files F h'
  simpa [sizeSum] using this

theorem fileCnt_removeFirst (bid fileId : String) (F : SFile) (db : DB)
    (h : getFileByID fileId db = some F) :
    fileCnt bid { db with files := removeFirstBy (fun f => f.id = fileId) db.files } =
      fileCnt bid db - (if F.bucketId = bid then 1 else 0) := by
  have h' : db.files.find? (fun f => decide (f.id = fileId)) = some F := h
  have := filterLen_removeFirstBy (fun f => decide (f.id = fileId))
    (fun f => decide (f.bucketId = bid)) db.files F h'
  simpa [fileCnt] using this

/-- `createFile` preserves the counter invariant: the new file contributes
exactly `+size` and `+1` to its bucket and nothing to any other. -/
theorem statsInv_createFile {req : CreateFileRequest} {newId newKey : String} {db db' : DB}
    {newF : SFile} (hinv : statsInv db)
    (h : FileService.createFile req newId newKey db = .ok (db', newF)) : statsInv db' := by
  simp only [FileService.createFile] at h
  split at h
  · exact absurd h (by simp)
  split at h
  · exact absurd h (by simp)
  cases hb : getBucketByID req.bucketId db with
  | none => rw [hb] at h; exact absurd h (by simp)
  | some b0 =>
    rw [hb] at h
    cases hn : getFileByName req.bucketId req.name db with
    | some g => rw [hn] at h; exact absurd h (by simp)
    | none =>
      rw [hn] at h
      rw [Except.ok.injEq, Prod.mk.injEq] at h
      obtain ⟨hdb, hnf⟩ := h
      subst hdb
      intro bid b hb2
      by_cases hcase : bid = req.bucketId
      · subst hcase
        rw [getBucketByID_incrementUploadCount, if_pos rfl,
          getBucketByID_updateBucketStats, if_pos rfl,
          getBucketByID_fileRepoCreate, hb] at hb2
        simp only [Option.map_some'] at hb2
        cases hb2
        have hbase := hinv req.bucketId b0 hb
        constructor
        · show b0.totalSize + req.size.getD 0 = _
          rw [sizeSum_incrementUploadCount, sizeSum_updateBucketStats, sizeSum_fileRepoCreate]
          simp [hbase.1]
        · show b0.fileCount + 1 = _
          rw [fileCnt_incrementUploadCount, fileCnt_updateBucketStats, fileCnt_fileRepoCreate]
          simp [hbase.2]
      · rw [getBucketByID_incrementUploadCount, if_neg hcase,
          getBucketByID_updateBucketStats, if_neg hcase,
          getBucketByID_fileRepoCreate] at hb2
        have hbase := hinv bid b hb2
        have hne : ¬ (req.bucketId = bid) := fun hc => hcase hc.symm
        constructor
        · rw [sizeSum_incrementUploadCount, sizeSum_updateBucketStats, sizeSum_fileRepoCreate]
          simp [hbase.1, hne]
        · rw [fileCnt_incrementUploadCount, fileCnt_updateBucketStats, fileCnt_fileRepoCreate]
          simp [hbase.2, hne]

/-- `deleteFile` preserves the counter invariant: the removed file's exact
recorded size and a count of 1 are subtracted from its bucket. -/
theorem statsInv_deleteFile {fileId : String} {db db' : DB} {deleted : Bool}
    (hinv : statsInv db)
    (h : FileService.deleteFile fileId db = .ok (db', deleted)) : statsInv db' := by
  simp only [FileService.deleteFile] at h
  split at h
  · exact absurd h (by simp)
  cases hf : getFileByID fileId db with
  | none => rw [hf] at h; exact absurd h (by simp)
  | some F =>
    rw [hf] at h
    simp only [fileRepoDelete, hf, Option.isSome_some, if_true] at h
    rw [Except.ok.injEq, Prod.mk.injEq] at h
    obtain ⟨hdb, hdel⟩ := h
    subst hdb
    intro bid b hb2
    by_cases hcase : bid = F.bucketId
    · subst hcase
      rw [getBucketByID_updateBucketStats, if_pos rfl, getBucketByID_setFiles] at hb2
      cases hb3 : getBucketByID F.bucketId db with
      | none => rw [hb3] at hb2; simp at hb2
      | some b0 =>
        rw [hb3] at hb2
        simp only [Option.map_some'] at hb2
        cases hb2
        have hbase := hinv F.bucketId b0 hb3
        constructor
        · show b0.totalSize + -F.size = _
          rw [sizeSum_updateBucketStats, sizeSum_removeFirst F.bucketId fileId F db hf]
          simp [hbase.1]
          ring
        · show b0.fileCount + -1 = _
          rw [fileCnt_updateBucketStats, fileCnt_removeFirst F.bucketId fileId F db hf]
          simp [hbase.2]
          ring
    · rw [getBucketByID_updateBucketStats, if_neg hcase, getBucketByID_setFiles] at hb2
      have hbase := hinv bid b hb2
      have hne : ¬ (F.bucketId = bid) := fun hc => hcase hc.symm
      constructor
      · rw [sizeSum_updateBucketStats, sizeSum_removeFirst bid fileId F db hf]
        simp [hbase.1, hne]
      · rw [fileCnt_updateBucketStats, fileCnt_removeFirst bid fileId F db hf]
        simp [hbase.2, hne]

/-- Any single successful operation preserves the invariant. -/
theorem statsInv_applyOp {op : FsOp} {db db' : DB} (hinv : statsInv db)
    (h : applyOp op db = .ok db') : statsInv db' := by
  cases op with
  | create req newId newKey =>
    simp only [applyOp] at h
    cases hc : FileService.createFile req newId newKey db with
    | error e => rw [hc] at h; exact absurd h (by simp [Except.map])
    | ok v =>
      rw [hc] at h
      simp only [Except.map, Except.ok.injEq] at h
      exact statsInv_createFile hinv (show _ = Except.ok (db', v.2) by rw [← h, hc])
  | delete fileId =>
    simp only [applyOp] at h
    cases hc : FileService.deleteFile fileId db with
    | error e => rw [hc] at h; exact absurd h (by simp [Except.map])
    | ok v =>
      rw [hc] at h
      simp only [Except.map, Except.ok.injEq] at h
      exact statsInv_deleteFile hinv (show _ = Except.ok (db', v.2) by rw [← h, hc])

/-- Any successful sequence preserves the invariant. -/
theorem statsInv_applyOps {ops : List FsOp} {db db' : DB} (hinv : statsInv db)
    (h : applyOps ops db = .ok db') : statsInv db' := by
  induction ops generalizing db with
  | nil => simp only [applyOps, Except.ok.injEq] at h; exact h ▸ hinv
  | cons op ops ih =>
    simp only [applyOps] at h
    cases hc : applyOp op db with
    | error e => rw [hc] at h; exact absurd h (by simp)
    | ok db1 =>
      rw [hc] at h
      exact ih (statsInv_applyOp hinv hc) h

/-! ## Characterizations of the file-service operations -/

/-- The source's required-field guard in `FileService.createFile`. -/
def reqMissing (req : CreateFileRequest) : Prop :=
  req.bucketId = "" ∨ req.name = "" ∨ req.originalName = "" ∨ req.ty = "" ∨ req.size = none

instance (req : CreateFileRequest) : Decidable (reqMissing req) := by
  unfold reqMissing; infer_instance

/-- The record `FileService.createFile` persists on success. -/
def mkNewFile (req : CreateFileRequest) (newId newKey : String) : SFile :=
  { id := newId, key := newKey, bucketId := req.bucketId, name := req.name,
    originalName := req.originalName, ty := req.ty, size := req.size.getD 0,
    downloads := 0, metadata := req.metadata }

/-- Inversion: everything a successful `createFile` run implies. -/
theorem createFile_ok_inv {req : CreateFileRequest} {newId newKey : String} {db db' : DB}
    {F : SFile} (h : FileService.createFile req newId newKey db = .ok (db', F)) :
    F = mkNewFile req newId newKey ∧
    db' = incrementUploadCount req.bucketId
      (updateBucketStats req.bucketId (req.size.getD 0) 1
        (fileRepoCreate (mkNewFile req newId newKey) db)) ∧
    ¬ reqMissing req ∧ ¬ req.size.getD 0 < 0 ∧
    (getBucketByID req.bucketId db).isSome ∧
    getFileByName req.bucketId req.name db = none := by
  simp only [FileService.createFile] at h
  split at h
  · exact absurd h (by simp)
  next hmiss =>
    split at h
    · exact absurd h (by simp)
    next hsz =>
      cases hb : getBucketByID req.bucketId db with
      | none => rw [hb] at h; exact absurd h (by simp)
      | some b0 =>
        rw [hb] at h
        cases hn : getFileByName req.bucketId req.name db with
        | some g => rw [hn] at h; exact absurd h (by simp)
        | none =>
          rw [hn] at h
          rw [Except.ok.injEq, Prod.mk.injEq] at h
          exact ⟨h.2.symm, h.1.symm, hmiss, hsz, by simp [hb], rfl⟩

/-- Forward direction: when every check passes, `createFile` persists the
record and issues the two counter updates. -/
theorem createFile_ok (req : CreateFileRequest) (newId newKey : String) (db : DB)
    (hmiss : ¬ reqMissing req) (hsz : ¬ req.size.getD 0 < 0)
    (hb : (getBucketByID req.bucketId db).isSome)
    (hn : getFileByName req.bucketId req.name db = none) :
    FileService.createFile req newId newKey db =
      .ok (incrementUploadCount req.bucketId
            (updateBucketStats req.bucketId (req.size.getD 0) 1
              (fileRepoCreate (mkNewFile req newId newKey) db)),
           mkNewFile req newId newKey) := by
  obtain ⟨b0, hb0⟩ := Option.isSome_iff_exists.mp hb
  have hmiss' : ¬ (req.bucketId = "" ∨ req.name = "" ∨ req.originalName = "" ∨
      req.ty = "" ∨ req.size = none) := hmiss
  simp only [FileService.createFile, mkNewFile]
  rw [if_neg hmiss', if_neg hsz, hb0, hn]

/-! ## Concrete fixtures used by the witnesses and counterexamples -/

/-- Fixture: an empty bucket. -/
def bktA : Bucket :=
  { id := "B1", name := "media", ownerId := "U1", publicKey := "PKA",
    privateKey := "SKA", downloadCount := 0, uploadCount := 0, totalSize := 0, fileCount := 0 }

/-- Fixture: a bucket holding one 7-byte file (counters consistent). -/
def bktB : Bucket :=
  { id := "B2", name := "other", ownerId := "U1", publicKey := "PKB",
    privateKey := "SKB", downloadCount := 0, uploadCount := 0, totalSize := 7, fileCount := 1 }

/-- Fixture: the file of `bktB`. -/
def filB : SFile :=
  { id := "F1", key := "K1", bucketId := "B2", name := "pic", originalName := "pic.png",
    ty := "image/png", size := 7, downloads := 0 }

/-- Fixture database. -/
def dbW : DB := { buckets := [bktA, bktB], files := [filB], users := ["U1"] }

/-- Fixture system state: the stored object for `filB` is present, the cache
is cold. -/
def sysW : Sys := { db := dbW, cache := [], r2 := ["F1"], now := 1000 }

/-- Fixture request for the `createFile` witness. -/
def reqC3 : CreateFileRequest :=
  { bucketId := "B1", name := "new", originalName := "orig", ty := "text/plain", size := some 3 }

/-- C3: `createFile` fails with the validation error when a required field is
missing or `size < 0`, with the not-found error when the bucket does not
exist, with the conflict error when a file with exactly the same
(case-sensitive) name exists in the bucket, and on success persists the file
with `downloads = 0` and issues `updateBucketStats(bucketId, +size, +1)`
followed by `incrementUploadCount(bucketId)`. -/
theorem C3_createFile_contract (req : CreateFileRequest) (newId newKey : String) (db : DB) :
    (reqMissing req →
      FileService.createFile req newId newKey db = .error "All file fields are required") ∧
    (¬ reqMissing req → req.size.getD 0 < 0 →
      FileService.createFile req newId newKey db = .error "File size cannot be negative") ∧
    (¬ reqMissing req → ¬ req.size.getD 0 < 0 → getBucketByID req.bucketId db = none →
      FileService.createFile req newId newKey db = .error "Bucket not found") ∧
    (¬ reqMissing req → ¬ req.size.getD 0 < 0 → (getBucketByID req.bucketId db).isSome →
      (getFileByName req.bucketId req.name db).isSome →
      FileService.createFile req newId newKey db =
        .error "File with this name already exists in bucket") ∧
    (¬ reqMissing req → ¬ req.size.getD 0 < 0 → (getBucketByID req.bucketId db).isSome →
      getFileByName req.bucketId req.name db = none →
      FileService.createFile req newId newKey db =
        .ok (incrementUploadCount req.bucketId
              (updateBucketStats req.bucketId (req.size.getD 0) 1
                (fileRepoCreate (mkNewFile req newId newKey) db)),
             mkNewFile req newId newKey) ∧
      (mkNewFile req newId newKey).downloads = 0) := by
  refine ⟨?_, ?_, ?_, ?_, ?_⟩
  · intro h
    have h' : req.bucketId = "" ∨ req.name = "" ∨ req.originalName = "" ∨
        req.ty = "" ∨ req.size = none := h
    simp only [FileService.createFile]
    rw [if_pos h']
  · intro hm hs
    have hm' : ¬ (req.bucketId = "" ∨ req.name = "" ∨ req.originalName = "" ∨
        req.ty = "" ∨ req.size = none) := hm
    simp only [FileService.createFile]
    rw [if_neg hm', if_pos hs]
  · intro hm hs hb
    have hm' : ¬ (req.bucketId = "" ∨ req.name = "" ∨ req.originalName = "" ∨
        req.ty = "" ∨ req.size = none) := hm
    simp only [FileService.createFile]
    rw [if_neg hm', if_neg hs, hb]
  · intro hm hs hb hn
    obtain ⟨b0, hb0⟩ := Option.isSome_iff_exists.mp hb
    obtain ⟨g, hg⟩ := Option.isSome_iff_exists.mp hn
    have hm' : ¬ (req.bucketId = "" ∨ req.name = "" ∨ req.originalName = "" ∨
        req.ty = "" ∨ req.size = none) := hm
    simp only [FileService.createFile]
    rw [if_neg hm', if_neg hs, hb0, hg]
  · intro hm hs hb hn
    exact ⟨createFile_ok req newId newKey db hm hs hb hn, rfl⟩

/-- Witness for C3: the success branch on the fixture database. -/
theorem C3_witness :
    FileService.createFile reqC3 "FX" "KX" dbW =
      .ok (incrementUploadCount reqC3.bucketId
            (updateBucketStats reqC3.bucketId (reqC3.size.getD 0) 1
              (fileRepoCreate (mkNewFile reqC3 "FX" "KX") dbW)),
           mkNewFile reqC3 "FX" "KX") ∧
    (mkNewFile reqC3 "FX" "KX").downloads = 0 :=
  (C3_createFile_contract reqC3 "FX" "KX" dbW).2.2.2.2
    (by decide) (by decide) (by decide) (by decide)

/-- C7: `incrementDownloads` fails with the not-found error when the file is
absent; on success it increments the file's `downloads` and the parent
bucket's `downloadCount`; and the bucket-level increment is skipped whenever
the file-level increment reports no row changed. -/
theorem C7_incrementDownloads_contract (fileId : String) (db : DB) :
    (strTrim fileId ≠ "" → getFileByID fileId db = none →
      FileService.incrementDownloads fileId db = .error "File not found") ∧
    (∀ f, strTrim fileId ≠ "" → getFileByID fileId db = some f →
      FileService.incrementDownloads fileId db =
        .ok (incrementDownloadCount f.bucketId (fileRepoIncrementDownloads fileId db).1,
             some { f with downloads := f.downloads + 1 })) ∧
    (∀ f db1, FileService.incrementDownloadsFinish f db1 none = (db1, none)) := by
  refine ⟨?_, ?_, ?_⟩
  · intro ht hf
    simp only [FileService.incrementDownloads]
    rw [if_neg ht, hf]
  · intro f ht hf
    simp only [FileService.incrementDownloads, fileRepoIncrementDownloads,
      FileService.incrementDownloadsFinish]
    rw [if_neg ht, hf]
  · intro f db1
    rfl

/-- Witness for C7: the success branch on the fixture database. -/
theorem C7_witness :
    FileService.incrementDownloads "F1" dbW =
      .ok (incrementDownloadCount filB.bucketId (fileRepoIncrementDownloads "F1" dbW).1,
           some { filB with downloads := filB.downloads + 1 }) :=
  (C7_incrementDownloads_contract "F1" dbW).2.1 filB (by decide) (by decide)

/-- C4 (amended): `deleteFile` fails with the not-found error when the file
is absent; on success it decrements the parent bucket's `totalSize` by
exactly the deleted file's recorded size and `fileCount` by 1, gated on the
metadata-store (database) delete having succeeded — and the object store is
not touched at all by this flow (`r2` passes through unchanged; the source
never calls `R2Helper.deleteFile` here). -/
theorem C4_deleteFile_amended (fileId : String) (s : Sys) :
    (strTrim fileId ≠ "" → getFileByID fileId s.db = none →
      deleteFileFlow fileId s = .error "File not found") ∧
    (∀ F, strTrim fileId ≠ "" → getFileByID fileId s.db = some F →
      deleteFileFlow fileId s =
        .ok ({ s with db := (updateBucketStats F.bucketId (-F.size) (-1)
                (fileRepoDelete fileId s.db).1) }, true) ∧
      ({ s with db := (updateBucketStats F.bucketId (-F.size) (-1)
          (fileRepoDelete fileId s.db).1) } : Sys).r2 = s.r2 ∧
      (∀ b, getBucketByID F.bucketId s.db = some b →
        getBucketByID F.bucketId
            (updateBucketStats F.bucketId (-F.size) (-1) (fileRepoDelete fileId s.db).1) =
          some { b with totalSize := b.totalSize - F.size,
                        fileCount := b.fileCount - 1 })) := by
  constructor
  · intro ht hf
    simp only [deleteFileFlow, FileService.deleteFile]
    rw [if_neg ht, hf]
  · intro F ht hf
    refine ⟨?_, rfl, ?_⟩
    · simp only [deleteFileFlow, FileService.deleteFile, fileRepoDelete]
      rw [if_neg ht, hf]
      simp
    · intro b hb
      rw [getBucketByID_updateBucketStats, if_pos rfl]
      simp only [fileRepoDelete, getBucketByID_setFiles]
      rw [hb]
      simp [sub_eq_add_neg]

/-- Witness for the amended C4 on the fixture state. -/
theorem C4_witness :
    deleteFileFlow "F1" sysW =
      .ok ({ sysW with db := (updateBucketStats filB.bucketId (-filB.size) (-1)
              (fileRepoDelete "F1" sysW.db).1) }, true) :=
  (((C4_deleteFile_amended "F1" sysW).2 filB (by decide) (by decide))).1

/-- C4 counterexample: the claim requires the decrement to run only after
the underlying object-store delete has succeeded.  On the fixture state the
deletion succeeds and the bucket is decremented (`B2` drops to
`totalSize = 0`, `fileCount = 0`), yet the stored object `"F1"` is still in
the object store afterwards: no object-store delete ever ran, so the claimed
ordering is violated. -/
theorem C4_counterexample :
    (deleteFileFlow "F1" sysW).toOption.map
        (fun r => (r.2, r.1.r2, getBucketByID "B2" r.1.db)) =
      some (true, ["F1"], some { bktB with totalSize := 0, fileCount := 0 }) := by
  decide

/-- C8: `deleteBucket` (spec-modelled service) fails with the not-found
error when the bucket is absent; fails with the conflict error — returning
only the error, hence deleting nothing and leaving the bucket unchanged —
when the file repository still reports files for the bucket, the emptiness
check running before any delete; and deletes only when the bucket is empty. -/
theorem C8_deleteBucket_contract (bucketId : String) (db : DB) :
    (strTrim bucketId ≠ "" → getBucketByID bucketId db = none →
      BucketService.deleteBucket bucketId db = .error "Bucket not found") ∧
    (strTrim bucketId ≠ "" → (getBucketByID bucketId db).isSome →
      getFilesByBucketID bucketId db ≠ [] →
      BucketService.deleteBucket bucketId db =
        .error "Cannot delete bucket that contains files. Delete all files first.") ∧
    (strTrim bucketId ≠ "" → (getBucketByID bucketId db).isSome →
      getFilesByBucketID bucketId db = [] →
      BucketService.deleteBucket bucketId db = .ok (bucketRepoDelete bucketId db)) := by
  refine ⟨?_, ?_, ?_⟩
  · intro ht hb
    simp only [BucketService.deleteBucket]
    rw [if_neg ht, hb]
  · intro ht hb hne
    obtain ⟨b0, hb0⟩ := Option.isSome_iff_exists.mp hb
    simp only [BucketService.deleteBucket]
    rw [if_neg ht, hb0, if_pos hne]
  · intro ht hb hemp
    obtain ⟨b0, hb0⟩ := Option.isSome_iff_exists.mp hb
    simp only [BucketService.deleteBucket]
    rw [if_neg ht, hb0, if_neg (by simp [hemp])]

/-- Witness for C8: deleting the non-empty fixture bucket is blocked with the
conflict error. -/
theorem C8_witness :
    BucketService.deleteBucket "B2" dbW =
      .error "Cannot delete bucket that contains files. Delete all files first." :=
  (C8_deleteBucket_contract "B2" dbW).2.1 (by decide) (by decide) (by decide)

/-- The record the spec-modelled `createBucket` persists on success. -/
def mkNewBucket (name ownerId newId publicKey privateKey : String) : Bucket :=
  { id := newId, name := strTrim name, ownerId := ownerId, publicKey := publicKey,
    privateKey := privateKey, downloadCount := 0, uploadCount := 0,
    totalSize := 0, fileCount := 0 }

/-- C9: `createBucket` (spec-modelled service) fails with the conflict error
when another bucket of the same owner has the same name compared
case-insensitively after trimming, fails with the not-found error when no
user exists for `ownerId`, and on success persists the bucket with all four
counters 0 and the freshly generated key pair (the uuid-generated keys enter
the model as the `publicKey`/`privateKey` parameters). -/
theorem C9_createBucket_contract (name ownerId newId pubKey privKey : String) (db : DB) :
    (strTrim name = "" →
      BucketService.createBucket name ownerId newId pubKey privKey db =
        .error "Bucket name is required") ∧
    (strTrim name ≠ "" → strTrim ownerId = "" →
      BucketService.createBucket name ownerId newId pubKey privKey db =
        .error "Owner ID is required") ∧
    (strTrim name ≠ "" → strTrim ownerId ≠ "" → userExists ownerId db = false →
      BucketService.createBucket name ownerId newId pubKey privKey db =
        .error "Owner not found") ∧
    (strTrim name ≠ "" → strTrim ownerId ≠ "" → userExists ownerId db = true →
      (db.buckets.filter (fun b => b.ownerId = ownerId)).any
          (fun b => strLower (strTrim b.name) = strLower (strTrim name)) = true →
      BucketService.createBucket name ownerId newId pubKey privKey db =
        .error "Bucket with this name already exists for this owner") ∧
    (strTrim name ≠ "" → strTrim ownerId ≠ "" → userExists ownerId db = true →
      (db.buckets.filter (fun b => b.ownerId = ownerId)).any
          (fun b => strLower (strTrim b.name) = strLower (strTrim name)) = false →
      BucketService.createBucket name ownerId newId pubKey privKey db =
        .ok ({ db with buckets := db.buckets ++ [mkNewBucket name ownerId newId pubKey privKey] },
             mkNewBucket name ownerId newId pubKey privKey) ∧
      (mkNewBucket name ownerId newId pubKey privKey).downloadCount = 0 ∧
      (mkNewBucket name ownerId newId pubKey privKey).uploadCount = 0 ∧
      (mkNewBucket name ownerId newId pubKey privKey).totalSize = 0 ∧
      (mkNewBucket name ownerId newId pubKey privKey).fileCount = 0 ∧
      (mkNewBucket name ownerId newId pubKey privKey).publicKey = pubKey ∧
      (mkNewBucket name ownerId newId pubKey privKey).privateKey = privKey) := by
  refine ⟨?_, ?_, ?_, ?_, ?_⟩
  · intro h
    simp only [BucketService.createBucket]
    rw [if_pos h]
  · intro h1 h2
    simp only [BucketService.createBucket]
    rw [if_neg h1, if_pos h2]
  · intro h1 h2 h3
    simp only [BucketService.createBucket]
    rw [if_neg h1, if_neg h2, if_pos (by simp [h3])]
  · intro h1 h2 h3 h4
    simp only [BucketService.createBucket]
    rw [if_neg h1, if_neg h2, if_neg (by simp [h3]), if_pos h4]
  · intro h1 h2 h3 h4
    refine ⟨?_, rfl, rfl, rfl, rfl, rfl, rfl⟩
    simp only [BucketService.createBucket, mkNewBucket]
    rw [if_neg h1, if_neg h2, if_neg (by simp [h3]), if_neg (by simp [h4])]

/-- Witness for C9: a duplicate name that matches only after trimming and
case-folding (`" MEDIA "` against the existing `"media"`) is rejected. -/
theorem C9_witness :
    BucketService.createBucket " MEDIA " "U1" "B3" "PK3" "SK3" dbW =
      .error "Bucket with this name already exists for this owner" :=
  (C9_createBucket_contract " MEDIA " "U1" "B3" "PK3" "SK3" dbW).2.2.2.1
    (by decide) (by decide) (by decide) (by decide)

/-- Decidable equality for `Except`, so concrete service runs can be checked
by `decide`. -/
def exceptDecEq [DecidableEq ε] [DecidableEq α] : DecidableEq (Except ε α)
  | .error e, .error f =>
    if h : e = f then isTrue (by rw [h]) else isFalse (by simp [h])
  | .error _, .ok _ => isFalse (by simp)
  | .ok _, .error _ => isFalse (by simp)
  | .ok a, .ok b =>
    if h : a = b then isTrue (by rw [h]) else isFalse (by simp [h])

instance [DecidableEq ε] [DecidableEq α] : DecidableEq (Except ε α) := exceptDecEq

/-- The fixture database satisfies the counter invariant. -/
theorem statsInv_dbW : statsInv dbW := by
  intro bid b hb
  by_cases hA : bid = "B1"
  · subst hA
    have hlook : getBucketByID "B1" dbW = some bktA := by decide
    rw [hlook, Option.some.injEq] at hb
    subst hb
    decide
  · by_cases hB : bid = "B2"
    · subst hB
      have hlook : getBucketByID "B2" dbW = some bktB := by decide
      rw [hlook, Option.some.injEq] at hb
      subst hb
      decide
    · have h1 : ¬ (bktA.id = bid) := fun hc => hA hc.symm
      have h2 : ¬ (bktB.id = bid) := fun hc => hB hc.symm
      have hlook : getBucketByID bid dbW = none := by
        simp [getBucketByID, dbW, List.find?, h1, h2]
      rw [hlook] at hb
      cases hb

/-- C2: after any sequence of successful `createFile`/`deleteFile`
operations starting from a database whose counters agree with its files,
every bucket's `totalSize` equals the sum of the sizes of the files
currently in that bucket and its `fileCount` equals their number
(`createFile` adds `+size`/`+1`, `deleteFile` subtracts the deleted file's
recorded size and 1). -/
theorem C2_counter_conservation (ops : List FsOp) (db db' : DB)
    (hinv : statsInv db) (h : applyOps ops db = .ok db') :
    ∀ bid b, getBucketByID bid db' = some b →
      b.totalSize = sizeSum bid db' ∧ b.fileCount = fileCnt bid db' :=
  statsInv_applyOps hinv h

/-- First request of the C2 witness sequence (a 3-byte file into `B1`). -/
def reqC2a : CreateFileRequest :=
  { bucketId := "B1", name := "a", originalName := "a", ty := "t", size := some 3 }

/-- Second request of the C2 witness sequence. -/
def reqC2b : CreateFileRequest :=
  { bucketId := "B1", name := "b", originalName := "b", ty := "t", size := some 5 }

/-- The C2 witness operation list. -/
def opsC2 : List FsOp :=
  [FsOp.create reqC2a "F2" "K2", FsOp.create reqC2b "F3" "K3", FsOp.delete "F1"]

/-- `B1` as `opsC2` leaves it. -/
def bktA2 : Bucket :=
  { id := "B1", name := "media", ownerId := "U1", publicKey := "PKA",
    privateKey := "SKA", downloadCount := 0, uploadCount := 2, totalSize := 8, fileCount := 2 }

/-- `B2` as `opsC2` leaves it. -/
def bktB2 : Bucket :=
  { id := "B2", name := "other", ownerId := "U1", publicKey := "PKB",
    privateKey := "SKB", downloadCount := 0, uploadCount := 0, totalSize := 0, fileCount := 0 }

/-- The first file `opsC2` creates. -/
def filC2a : SFile :=
  { id := "F2", key := "K2", bucketId := "B1", name := "a", originalName := "a",
    ty := "t", size := 3, downloads := 0 }

/-- The second file `opsC2` creates. -/
def filC2b : SFile :=
  { id := "F3", key := "K3", bucketId := "B1", name := "b", originalName := "b",
    ty := "t", size := 5, downloads := 0 }

/-- The database `opsC2` produces from `dbW`. -/
def dbC2 : DB :=
  { buckets := [bktA2, bktB2], files := [filC2a, filC2b], users := ["U1"] }

/-- Witness for C2: the fixture sequence succeeds and the resulting `B1`
record's counters match the remaining files exactly. -/
theorem C2_witness :
    applyOps opsC2 dbW = .ok dbC2 ∧
    (getBucketByID "B1" dbC2).map Bucket.totalSize = some (sizeSum "B1" dbC2) ∧
    (getBucketByID "B1" dbC2).map Bucket.fileCount = some (fileCnt "B1" dbC2) := by
  have h := C2_counter_conservation opsC2 dbW dbC2 statsInv_dbW (by decide)
  refine ⟨by decide, ?_, ?_⟩
  · cases hb : getBucketByID "B1" dbC2 with
    | none => exact absurd hb (by decide)
    | some b => simp [(h "B1" b hb).1]
  · cases hb : getBucketByID "B1" dbC2 with
    | none => exact absurd hb (by decide)
    | some b => simp [(h "B1" b hb).2]

/-! ## Cache behaviour lemmas -/

theorem getFromCacheE_hit {key : String} {now : Nat} {c : List CacheEntry} {v : String}
    (ex : Except String String) (ttl : Option Nat)
    (h : cacheLookup key now c = some v) :
    getFromCacheE key ex ttl now c = .ok (v, c) := by
  simp only [getFromCacheE, h]

theorem getFromCacheE_miss_store {key : String} {now : Nat} {c : List CacheEntry}
    {ex : Except String String} {v : String} (ms : Nat)
    (hcold : cacheLookup key now c = none) (hok : ex = .ok v) (hv : v ≠ "") :
    getFromCacheE key ex (some ms) now c =
      .ok (v, cacheSet key v (some (now + msToSec ms * 1000)) c) := by
  simp only [getFromCacheE, hcold, hok]
  rw [if_neg hv]

theorem cacheLookup_cacheSet_self (key v : String) (t now' : Nat) (c : List CacheEntry) :
    cacheLookup key now' (cacheSet key v (some t) c) =
      if now' ≤ t then some v else none := by
  unfold cacheLookup cacheSet
  rw [List.find?_append]
  have hnone : (c.filter (fun e => !(e.key = key))).find?
      (fun e => decide (e.key = key)) = none := by
    rw [List.find?_eq_none]
    intro e he
    have hmem := List.of_mem_filter he
    simpa using hmem
  rw [hnone]
  simp [List.find?]

/-! ## Controller-level lemmas for the download flow -/

theorem getFileByID_updBucket (fid tid : String) (f : Bucket → Bucket) (db : DB) :
    getFileByID fid (updBucket tid f db) = getFileByID fid db := rfl

theorem getBucketByID_fileRepoIncrement (bid fid : String) (db : DB) :
    getBucketByID bid (fileRepoIncrementDownloads fid db).1 = getBucketByID bid db := by
  cases h : getFileByID fid db
  · simp [fileRepoIncrementDownloads, h]
  · simp only [fileRepoIncrementDownloads, h]
    rfl

theorem getFileByID_after_increment (fileId : String) (db : DB) (f : SFile)
    (hf : getFileByID fileId db = some f) :
    getFileByID fileId (fileRepoIncrementDownloads fileId db).1 =
      some { f with downloads := f.downloads + 1 } := by
  simp only [fileRepoIncrementDownloads, hf]
  have hkey := find?_updateFirstBy_key SFile.id
    (fun g => { g with downloads := g.downloads + 1 }) (fun _ => rfl) fileId fileId db.files
  rw [if_pos rfl] at hkey
  simp only [getFileByID] at hf ⊢
  rw [hkey, hf]
  rfl

/-- Success characterization of the download-URL controller: with a valid id,
a file owned by the authenticated bucket and a successful cache-through URL
computation, the controller returns the URL, stores the possibly-updated
cache, increments the file's `downloads` and the bucket's `downloadCount`. -/
theorem getDownloadUrl_ok (fileId : String) (bucket : Bucket)
    (gen : String → Except String String) (s : Sys) (f : SFile) (url : String)
    (c1 : List CacheEntry)
    (ht : strTrim fileId ≠ "") (hf : getFileByID fileId s.db = some f)
    (hb : f.bucketId = bucket.id)
    (hcache : getFromCacheE ("download_url:" ++ fileId) (gen f.id) (some 3600000)
        s.now s.cache = .ok (url, c1)) :
    PublicController.getDownloadUrl fileId bucket gen s =
      ({ s with
          db := (incrementDownloadCount bucket.id
            (fileRepoIncrementDownloads fileId s.db).1),
          cache := c1 }, .ok url) := by
  have hfid : f.id = fileId := by
    have hsome := List.find?_some hf
    simpa using hsome
  have hne : fileId ≠ "" := by
    intro h0
    exact ht (by rw [h0]; rfl)
  simp only [PublicController.getDownloadUrl, FileService.getFileById]
  rw [if_neg hne, if_neg ht, hf]
  dsimp only
  rw [if_neg (show ¬ (f.bucketId ≠ bucket.id) by simp [hb]), hcache]
  dsimp only
  simp only [FileService.incrementDownloads]
  rw [hfid, if_neg ht, hf]
  dsimp only
  simp only [FileService.incrementDownloadsFinish, fileRepoIncrementDownloads, hf]
  rw [hb]

theorem getFileByID_incrementDownloadCount (fid tid : String) (db : DB) :
    getFileByID fid (incrementDownloadCount tid db) = getFileByID fid db := rfl

/-- Fixture URL generator. -/
def genW : String → Except String String := fun k => .ok ("url_" ++ k)

/-- C5 (amended): requesting a download URL for a file while authenticated
with a different bucket's key fails — the thrown message is
`'File does not belong to this bucket'`, the state is unchanged and no URL is
ever returned — but the response the wrapper maps it to is the
internal-server-error fallback (the message matches none of the
`DEFAULT_ERROR_MAPPINGS` patterns), not a NotFound/Unauthorized response. -/
theorem C5_download_cross_tenant (fileId : String) (bucket : Bucket)
    (gen : String → Except String String) (s : Sys) (f : SFile)
    (ht : strTrim fileId ≠ "") (hf : getFileByID fileId s.db = some f)
    (hten : f.bucketId ≠ bucket.id) :
    PublicController.getDownloadUrl fileId bucket gen s =
      (s, .err "File does not belong to this bucket") ∧
    wrapResult (PublicController.getDownloadUrl fileId bucket gen s).2 =
      RespKind.internalError := by
  have hne : fileId ≠ "" := fun h0 => ht (by rw [h0]; rfl)
  have hrun : PublicController.getDownloadUrl fileId bucket gen s =
      (s, .err "File does not belong to this bucket") := by
    simp only [PublicController.getDownloadUrl, FileService.getFileById]
    rw [if_neg hne, if_neg ht, hf]
    dsimp only
    rw [if_pos hten]
  refine ⟨hrun, ?_⟩
  rw [hrun]
  show wrapResult (CtrlResult.err "File does not belong to this bucket") = RespKind.internalError
  decide

/-- Witness for the amended C5: the fixture file `F1` belongs to `B2`; asked
for under `B1`'s key the request fails with the unmatched message and an
internal-error response. -/
theorem C5_witness :
    PublicController.getDownloadUrl "F1" bktA genW sysW =
      (sysW, .err "File does not belong to this bucket") ∧
    wrapResult (PublicController.getDownloadUrl "F1" bktA genW sysW).2 =
      RespKind.internalError :=
  C5_download_cross_tenant "F1" bktA genW sysW filB (by decide) (by decide) (by decide)

/-- C5 counterexample: the claim says the cross-tenant request fails with a
NotFound/Unauthorized-kind response.  On the fixture (file `F1` of bucket
`B2`, key of bucket `A`) the wrapper's response kind is the
internal-server-error fallback, which is neither. -/
theorem C5_counterexample :
    PublicController.getDownloadUrl "F1" bktA genW sysW =
      (sysW, .err "File does not belong to this bucket") ∧
    wrapResult (PublicController.getDownloadUrl "F1" bktA genW sysW).2 =
      RespKind.internalError ∧
    wrapResult (PublicController.getDownloadUrl "F1" bktA genW sysW).2 ≠
      RespKind.notFound ∧
    wrapResult (PublicController.getDownloadUrl "F1" bktA genW sysW).2 ≠
      RespKind.unauthorized := by
  decide

/-- C6: two download-URL requests for the same file within the cache TTL
(second at time `t2`, at most one hour after the first stored the URL)
return the identical URL string both times — even under a different URL
generator — while the file's `downloads` counter rises by exactly 2 and the
parent bucket's `downloadCount` rises by exactly 2: the counter is
incremented on every request, cache hit included. -/
theorem C6_download_url_cached_counts (s s1 s2 : Sys) (bucket : Bucket) (fileId : String)
    (f : SFile) (gen1 gen2 : String → Except String String) (url1 : String)
    (out1 out2 : CtrlResult String) (t2 : Nat)
    (ht : strTrim fileId ≠ "")
    (hf : getFileByID fileId s.db = some f)
    (hb : f.bucketId = bucket.id)
    (hcold : cacheLookup ("download_url:" ++ fileId) s.now s.cache = none)
    (hgen : gen1 f.id = .ok url1)
    (hurl : url1 ≠ "")
    (ht2 : t2 ≤ s.now + 3600000)
    (hrun1 : PublicController.getDownloadUrl fileId bucket gen1 s = (s1, out1))
    (hrun2 : PublicController.getDownloadUrl fileId bucket gen2 { s1 with now := t2 } =
      (s2, out2)) :
    out1 = .ok url1 ∧ out2 = .ok url1 ∧
    getFileByID fileId s2.db = some { f with downloads := f.downloads + 2 } ∧
    (∀ b0, getBucketByID bucket.id s.db = some b0 →
      getBucketByID bucket.id s2.db =
        some { b0 with downloadCount := b0.downloadCount + 2 }) := by
  have hms : msToSec 3600000 * 1000 = 3600000 := by decide
  have hcache1 := getFromCacheE_miss_store 3600000 hcold hgen hurl
  have heq1 := getDownloadUrl_ok fileId bucket gen1 s f url1 _ ht hf hb hcache1
  rw [heq1, Prod.mk.injEq] at hrun1
  obtain ⟨hs1, hout1⟩ := hrun1
  have hdb1 : s1.db = incrementDownloadCount bucket.id
      (fileRepoIncrementDownloads fileId s.db).1 := by rw [← hs1]
  have hc1 : s1.cache = cacheSet ("download_url:" ++ fileId) url1
      (some (s.now + msToSec 3600000 * 1000)) s.cache := by rw [← hs1]
  have hf1 : getFileByID fileId s1.db = some { f with downloads := f.downloads + 1 } := by
    rw [hdb1, getFileByID_incrementDownloadCount]
    exact getFileByID_after_increment fileId s.db f hf
  have hb1 : ({ f with downloads := f.downloads + 1 } : SFile).bucketId = bucket.id := hb
  have hT : t2 ≤ s.now + msToSec 3600000 * 1000 := by rw [hms]; exact ht2
  have hlook2 : cacheLookup ("download_url:" ++ fileId) t2 s1.cache = some url1 := by
    rw [hc1, cacheLookup_cacheSet_self, if_pos hT]
  have hcache2 := getFromCacheE_hit
    (gen2 ({ f with downloads := f.downloads + 1 } : SFile).id) (some 3600000) hlook2
  have heq2 := getDownloadUrl_ok fileId bucket gen2 ({ s1 with now := t2 })
    { f with downloads := f.downloads + 1 } url1 s1.cache ht hf1 hb1 hcache2
  rw [heq2, Prod.mk.injEq] at hrun2
  obtain ⟨hs2, hout2⟩ := hrun2
  have hdb2 : s2.db = incrementDownloadCount bucket.id
      (fileRepoIncrementDownloads fileId s1.db).1 := by rw [← hs2]
  refine ⟨hout1.symm, hout2.symm, ?_, ?_⟩
  · rw [hdb2, getFileByID_incrementDownloadCount,
      getFileByID_after_increment fileId s1.db _ hf1]
    have hd : f.downloads + 1 + 1 = f.downloads + 2 := by ring
    simp [hd]
  · intro b0 hb0
    rw [hdb2, getBucketByID_incrementDownloadCount, if_pos rfl,
      getBucketByID_fileRepoIncrement, hdb1, getBucketByID_incrementDownloadCount,
      if_pos rfl, getBucketByID_fileRepoIncrement, hb0]
    have hd : b0.downloadCount + 1 + 1 = b0.downloadCount + 2 := by ring
    simp [hd]

/-- A second fixture URL generator, deliberately different from `genW`: the
second request returns the first's URL because of the cache, not because the
generators agree. -/
def genW2 : String → Except String String := fun k => .ok ("other_" ++ k)

/-- First fixture download request. -/
def c6run1 : Sys × CtrlResult String := PublicController.getDownloadUrl "F1" bktB genW sysW

/-- Second fixture download request, 499 seconds later, with the other
generator. -/
def c6run2 : Sys × CtrlResult String :=
  PublicController.getDownloadUrl "F1" bktB genW2 { c6run1.1 with now := 500000 }

/-- Witness for C6 on the fixture state. -/
theorem C6_witness :
    c6run1.2 = .ok "url_F1" ∧ c6run2.2 = .ok "url_F1" ∧
    getFileByID "F1" c6run2.1.db = some { filB with downloads := filB.downloads + 2 } ∧
    getBucketByID bktB.id c6run2.1.db =
      some { bktB with downloadCount := bktB.downloadCount + 2 } := by
  have h := C6_download_url_cached_counts sysW c6run1.1 c6run2.1 bktB "F1" filB
    genW genW2 "url_F1" c6run1.2 c6run2.2 500000
    (by decide) (by decide) (by decide) (by decide) (by decide) (by decide) (by decide)
    rfl rfl
  exact ⟨h.1, h.2.1, h.2.2.1, h.2.2.2 bktB (by decide)⟩

/-! ## The public upload flows (claims C1 and C10) -/

/-- Fixture upload-URI request. -/
def upReqW : UploadUriRequest :=
  { fileName := some "doc", fileType := "text/plain", fileSize := some 5 }

/-- Fixture issuance failure (`R2Helper.generatePresignedUploadUrl` throwing). -/
def issueFail : String → Except String String :=
  fun _ => .error "Failed to generate upload URL"

/-- Fixture successful issuance. -/
def issueOk : String → Except String String := fun k => .ok ("up_" ++ k)

/-- C1: the claim says that when presigned-URL issuance fails after the file
record was created, the upload-URI flow deletes the record again.  Running
`getUploadUri` on the fixture with failing issuance, the error propagates
but the just-created record `FID1` is still present afterwards (and `B1`'s
counters were already bumped): the flow has no rollback — only the separate
direct-upload flow (`uploadFile`) has one. -/
theorem C1_uploadUri_orphan_on_issuance_failure :
    (PublicController.getUploadUri upReqW bktA "N1" "FID1" "FK1" issueFail sysW).2 =
      .err "Failed to generate upload URL" ∧
    getFileByID "FID1"
        (PublicController.getUploadUri upReqW bktA "N1" "FID1" "FK1" issueFail sysW).1.db =
      some { id := "FID1", key := "FK1", bucketId := "B1", name := "docxxxN1",
             originalName := "docxxxN1", ty := "text/plain", size := 5, downloads := 0,
             metadata := [] } ∧
    getBucketByID "B1"
        (PublicController.getUploadUri upReqW bktA "N1" "FID1" "FK1" issueFail sysW).1.db =
      some { bktA with uploadCount := 1, totalSize := 5, fileCount := 1 } := by
  decide

/-- Fixture multipart-upload request. -/
def ufReqW : UploadFileRequest :=
  { originalname := "doc.txt", mimetype := "text/plain", size := 5 }

/-- Contrast for C1: the direct-upload flow does perform the compensating
delete — after a failing issuance no record remains. -/
theorem uploadFile_rollback_fixture :
    (PublicController.uploadFile ufReqW bktA "FID9" "FK9" issueFail sysW).2 =
      .err "Failed to generate upload URL" ∧
    getFileByID "FID9"
        (PublicController.uploadFile ufReqW bktA "FID9" "FK9" issueFail sysW).1.db =
      none := by
  decide

/-! ## String lemmas for the generated file names -/

theorem append_cancel_left_ne (a : String) {b c : String} (h : b ≠ c) : a ++ b ≠ a ++ c := by
  intro hc
  apply h
  have hd := congrArg String.data hc
  rw [String.data_append, String.data_append] at hd
  exact String.ext (List.append_cancel_left hd)

theorem generated_name_ne (fn n : String) : fn ++ "xxx" ++ n ≠ fn := by
  intro h
  have hl := congrArg String.length h
  rw [String.length_append, String.length_append] at hl
  have h3 : ("xxx" : String).length = 3 := rfl
  omega

theorem generated_name_ne_empty (base n : String) : base ++ "xxx" ++ n ≠ "" := by
  intro h
  have hl := congrArg String.length h
  rw [String.length_append, String.length_append] at hl
  have h3 : ("xxx" : String).length = 3 := rfl
  have h0 : ("" : String).length = 0 := rfl
  omega

theorem generated_name_inj (base : String) {n1 n2 : String} (h : n1 ≠ n2) :
    base ++ "xxx" ++ n1 ≠ base ++ "xxx" ++ n2 :=
  append_cancel_left_ne (base ++ "xxx") h

theorem getFileByName_updateBucketStats (B nm tid : String) (sd cd : Int) (db : DB) :
    getFileByName B nm (updateBucketStats tid sd cd db) = getFileByName B nm db := rfl

theorem getFileByName_incrementUploadCount (B nm tid : String) (db : DB) :
    getFileByName B nm (incrementUploadCount tid db) = getFileByName B nm db := rfl

theorem getFileByName_fileRepoCreate_none {B nm : String} {db : DB} {nf : SFile}
    (h1 : getFileByName B nm db = none) (h2 : ¬ (nf.name = nm)) :
    getFileByName B nm (fileRepoCreate nf db) = none := by
  simp only [getFileByName, fileRepoCreate] at h1 ⊢
  rw [List.find?_append, h1]
  simp [List.find?, h2]

/-- The `CreateFileRequest` the upload-URI controller hands to the file
service (its generated name, fallback original name, caller-supplied type,
size and metadata). -/
def uploadCreateReq (req : UploadUriRequest) (bucket : Bucket) (nonce : String) :
    CreateFileRequest :=
  { bucketId := bucket.id,
    name := (req.fileName.getD "UNNAMED") ++ "xxx" ++ nonce,
    originalName :=
      (if req.originalName = "" then (req.fileName.getD "UNNAMED") ++ "xxx" ++ nonce
       else req.originalName),
    ty := req.fileType, size := req.fileSize, metadata := req.metadata }

/-- C10: a successful upload-URI request never stores the caller-supplied
`fileName` verbatim — the created record's name is always the supplied
`fileName` (or `"UNNAMED"` when omitted) concatenated with `"xxx"` and the
freshly generated id — so a second request with the same `fileName` but a
fresh nonce and fresh file id also succeeds, producing a second, distinct
record instead of failing with a name conflict. -/
theorem C10_uploadUri_generated_names
    (req : UploadUriRequest) (bucket : Bucket) (n1 fid1 fk1 : String)
    (issue1 : String → Except String String) (s s1 : Sys) (p1 : UploadPayload)
    (hrun1 : PublicController.getUploadUri req bucket n1 fid1 fk1 issue1 s = (s1, .ok p1)) :
    p1.file.name = (req.fileName.getD "UNNAMED") ++ "xxx" ++ n1 ∧
    (∀ fn, req.fileName = some fn → p1.file.name ≠ fn) ∧
    (∀ n2 fid2 fk2 url2, ∀ issue2 : String → Except String String, n1 ≠ n2 →
      getFileByName bucket.id ((req.fileName.getD "UNNAMED") ++ "xxx" ++ n2) s.db = none →
      issue2 fid2 = .ok url2 →
      (PublicController.getUploadUri req bucket n2 fid2 fk2 issue2 s1).2 =
        .ok { file := mkNewFile (uploadCreateReq req bucket n2) fid2 fk2,
              uploadUrl := url2 } ∧
      (mkNewFile (uploadCreateReq req bucket n2) fid2 fk2).name ≠ p1.file.name ∧
      (mkNewFile (uploadCreateReq req bucket n2) fid2 fk2).id = fid2) := by
  simp only [PublicController.getUploadUri] at hrun1
  split at hrun1
  · rw [Prod.mk.injEq] at hrun1
    exact absurd hrun1.2 (by simp)
  next hguard =>
    split at hrun1
    next e hc =>
      rw [Prod.mk.injEq] at hrun1
      exact absurd hrun1.2 (by simp)
    next db1 file hc =>
      split at hrun1
      next e hi =>
        rw [Prod.mk.injEq] at hrun1
        exact absurd hrun1.2 (by simp)
      next url hi =>
        rw [Prod.mk.injEq] at hrun1
        obtain ⟨hs1, hp1⟩ := hrun1
        have hp1' : p1 = { file := file, uploadUrl := url } := by
          injection hp1 with h
          exact h.symm
        obtain ⟨hfile, hdb1, hmiss1, hsz1, hbsome, hfresh1⟩ := createFile_ok_inv hc
        have hguard' := hguard
        rw [not_or, not_or] at hguard'
        obtain ⟨hty, hsnone, hszero⟩ := hguard'
        refine ⟨?_, ?_, ?_⟩
        · rw [hp1', hfile]
          rfl
        · intro fn hfn
          rw [hp1', hfile]
          show (uploadCreateReq req bucket n1).name ≠ fn
          unfold uploadCreateReq
          rw [hfn]
          exact generated_name_ne fn n1
        · intro n2 fid2 fk2 url2 issue2 hn hfresh2 hi2
          have hbid : ¬ ((uploadCreateReq req bucket n1).bucketId = "") := by
            intro h0
            exact hmiss1 (Or.inl h0)
          have hmiss2 : ¬ reqMissing (uploadCreateReq req bucket n2) := by
            intro hx
            rcases hx with h | h | h | h | h
            · exact hbid h
            · exact generated_name_ne_empty (req.fileName.getD "UNNAMED") n2 h
            · revert h
              show ¬ ((uploadCreateReq req bucket n2).originalName = "")
              unfold uploadCreateReq
              dsimp only
              by_cases ho : req.originalName = ""
              · rw [if_pos ho]
                exact generated_name_ne_empty (req.fileName.getD "UNNAMED") n2
              · rw [if_neg ho]
                exact ho
            · exact hty h
            · exact hsnone h
          have hsz2 : ¬ ((uploadCreateReq req bucket n2).size.getD 0 < 0) := hsz1
          have hdb1' : s1.db = db1 := by rw [← hs1]
          have hb2 : (getBucketByID bucket.id s1.db).isSome := by
            rw [hdb1', hdb1]
            rw [getBucketByID_incrementUploadCount, if_pos rfl,
              getBucketByID_updateBucketStats, if_pos rfl, getBucketByID_fileRepoCreate]
            simpa using hbsome
          have hname1ne : ¬ ((mkNewFile (uploadCreateReq req bucket n1) fid1 fk1).name =
              (req.fileName.getD "UNNAMED") ++ "xxx" ++ n2) := by
            show ¬ ((req.fileName.getD "UNNAMED") ++ "xxx" ++ n1 = _)
            exact generated_name_inj _ hn
          have hname2 : getFileByName bucket.id
              ((req.fileName.getD "UNNAMED") ++ "xxx" ++ n2) s1.db = none := by
            rw [hdb1', hdb1, getFileByName_incrementUploadCount,
              getFileByName_updateBucketStats]
            exact getFileByName_fileRepoCreate_none hfresh2 hname1ne
          have hcf2 := createFile_ok (uploadCreateReq req bucket n2) fid2 fk2 s1.db
            hmiss2 hsz2 hb2 hname2
          simp only [uploadCreateReq] at hcf2
          refine ⟨?_, ?_, rfl⟩
          · simp only [PublicController.getUploadUri]
            rw [if_neg hguard, hcf2]
            dsimp only [mkNewFile, uploadCreateReq]
            rw [hi2]
          · rw [hp1', hfile]
            show (uploadCreateReq req bucket n2).name ≠ (uploadCreateReq req bucket n1).name
            unfold uploadCreateReq
            dsimp only
            exact generated_name_inj _ (fun hc2 => hn hc2.symm)

/-- First fixture upload-URI run for the C10 witness. -/
def c10run1 : Sys × CtrlResult UploadPayload :=
  PublicController.getUploadUri upReqW bktA "N1" "FID1" "FK1" issueOk sysW

/-- The file record the first fixture run creates. -/
def p1WFile : SFile :=
  { id := "FID1", key := "FK1", bucketId := "B1", name := "docxxxN1",
    originalName := "docxxxN1", ty := "text/plain", size := 5, downloads := 0,
    metadata := [] }

/-- The payload the first fixture run returns. -/
def p1W : UploadPayload := { file := p1WFile, uploadUrl := "up_FID1" }

/-- Witness for C10: the fixture request (`fileName = "doc"`) stores
`"docxxxN1"`, not `"doc"`, and the repeated request with a fresh nonce
succeeds with a second, differently-named record. -/
theorem C10_witness :
    p1W.file.name = "docxxxN1" ∧
    p1W.file.name ≠ "doc" ∧
    (PublicController.getUploadUri upReqW bktA "N2" "FID2" "FK2" issueOk c10run1.1).2 =
      .ok { file := mkNewFile (uploadCreateReq upReqW bktA "N2") "FID2" "FK2",
            uploadUrl := "up_FID2" } ∧
    (mkNewFile (uploadCreateReq upReqW bktA "N2") "FID2" "FK2").name ≠ p1W.file.name := by
  have h := C10_uploadUri_generated_names upReqW bktA "N1" "FID1" "FK1" issueOk sysW
    c10run1.1 p1W (by decide)
  have h3 := h.2.2 "N2" "FID2" "FK2" "up_FID2" issueOk (by decide) (by decide) (by decide)
  exact ⟨h.1.trans (by decide), h.2.1 "doc" (by decide), h3.1, h3.2.1⟩

end Storex
